import Mathlib

/-!
Verification development for the `sbcstuff` repository.

Shallow Lean embeddings of:
* `scripts/rock5b/rock5b-npu-test.py` — kernel-version check, benchmark run-count
  selection, synthetic test-input generation, INT8 quantization check, NPU-vs-CPU
  output comparison, and the delegate-partition backward-tracing analysis;
* `repo_scripts/update_badge.py` — clone-history merge, badge JSON construction,
  and the history-load error handling;
* the argument parser of `repo_scripts/blurimage.py` (modelled from the spec,
  the file itself is not part of the analyzed sources).

Machine integers are modelled as `Nat`/`Int`; Python floats appearing in
numeric comparisons are idealized as exact rationals (`ℚ`).
-/

namespace Sbcstuff

/-! ### rock5b-npu-test.py: configuration constants -/

/-- `BENCHMARK_NUM_RUNS = 50` — fallback if model size unknown. -/
def BENCHMARK_NUM_RUNS : Nat := 50

/-- `MODEL_SIZE_THRESHOLDS = [(5*1024*1024, 100), (20*1024*1024, 50)]`. -/
def MODEL_SIZE_THRESHOLDS : List (Nat × Nat) :=
  [(5 * 1024 * 1024, 100), (20 * 1024 * 1024, 50)]

/-- `MODEL_SIZE_FALLBACK_RUNS = 20`. -/
def MODEL_SIZE_FALLBACK_RUNS : Nat := 20

/-- `OUTPUT_COMPARISON_TOLERANCE = 2` — absolute tolerance for output comparison. -/
def OUTPUT_COMPARISON_TOLERANCE : ℚ := 2

/-! ### `num_runs_for_model`

The Python function stats the model file; on `OSError` it returns
`BENCHMARK_NUM_RUNS`. We model the stat result as `Option Nat`
(`none` = stat failed, `some size` = file size in bytes). The loop
`for threshold, runs in MODEL_SIZE_THRESHOLDS: if size < threshold: return runs`
is the first threshold entry with `size < threshold`. -/

def num_runs_for_model (statSize : Option Nat) : Nat :=
  match statSize with
  | none => BENCHMARK_NUM_RUNS
  | some size =>
    match MODEL_SIZE_THRESHOLDS.find? (fun tr => size < tr.1) with
    | some tr => tr.2
    | none => MODEL_SIZE_FALLBACK_RUNS

/-! ### `check_kernel`

`re.match(r"(\d+)\.(\d+)", ver)` matches, at the start of the string, a maximal
run of digits, a literal dot, and a second run of digits.  (Backtracking cannot
produce a match the greedy reading misses: shortening the first digit run puts a
digit, not a dot, after it.)  `int` on a digit run is the usual decimal value. -/

/-- Decimal value of a digit run (Python `int` on the matched group). -/
def digitsToNat (ds : List Char) : Nat :=
  ds.foldl (fun acc c => acc * 10 + (c.toNat - '0'.toNat)) 0

/-- `re.match(r"(\d+)\.(\d+)", ver)` followed by `int` on both groups:
`some (major, minor)` on a match, `none` otherwise. -/
def parseMajorMinor (ver : String) : Option (Nat × Nat) :=
  let cs := ver.data
  let d1 := cs.takeWhile Char.isDigit
  let r1 := cs.dropWhile Char.isDigit
  if d1.isEmpty then none
  else
    match r1 with
    | '.' :: r2 =>
      let d2 := r2.takeWhile Char.isDigit
      if d2.isEmpty then none
      else some (digitsToNat d1, digitsToNat d2)
    | _ => none

/-- `check_kernel`, with `platform.release()` passed in as `ver`.
Returns the release string and the support verdict. -/
def check_kernel (ver : String) : String × Bool :=
  match parseMajorMinor ver with
  | none => (ver, false)
  | some (major, minor) => (ver, decide ((major > 6) ∨ (major = 6 ∧ minor ≥ 18)))

/-! ### numpy element types

Only the declared element type (`dtype`) of a tensor matters for
`create_test_input` and `check_model_int8`. -/

/-- numpy scalar element types appearing in the tool's dtype dispatches. -/
inductive NPDtype where
  | uint8
  | int8
  | int32
  | float16
  | float32
  | float64
  deriving DecidableEq, Repr

/-! ### `create_test_input`

`np.random.randint(low, high, ...)` draws uniformly from the half-open
integer interval `[low, high)` (numpy's documented semantics: `high` is
exclusive); `np.random.rand(...)` draws uniformly from `[0, 1)`.
`create_test_input` only *chooses* which generator to run on the first
input's shape; we embed that choice as data and the generators' supports
as sets. -/

/-- The random generator `create_test_input` invokes for the tensor elements. -/
inductive TestInputGen where
  /-- `np.random.randint(low, high, size=shape, dtype=...)`. -/
  | randint (low high : ℤ)
  /-- `np.random.rand(*shape).astype(dtype)`: uniform `[0,1)` floats cast to `dtype`. -/
  | randFloatCast (target : NPDtype)
  deriving DecidableEq, Repr

/-- Support of `np.random.randint(low, high)`: the half-open interval
`[low, high)` — `high` itself can never be drawn. -/
def np_randint_support (low high : ℤ) : Set ℤ := {n : ℤ | low ≤ n ∧ n < high}

/-- `create_test_input`'s dtype dispatch (the shape is passed through to the
generator unchanged and does not affect the element range). -/
def create_test_input (dtype : NPDtype) : TestInputGen :=
  match dtype with
  | .uint8 => .randint 0 256
  | .int8 => .randint (-128) 127
  | d => .randFloatCast d

/-! ### `check_model_int8`

`tensor_details` from the interpreter is a list of per-tensor records; only
each tensor's `dtype` is consulted:
`float_ops = [t for t in tensor_details if t["dtype"] == np.float32]`,
result `True` iff `float_ops` is empty. -/

/-- `check_model_int8`, with the loaded model's internal tensor dtypes passed
in as `tensor_details`. -/
def check_model_int8 (tensor_details : List NPDtype) : Bool :=
  let float_ops := tensor_details.filter (fun t => t = NPDtype.float32)
  float_ops.isEmpty

/-! ### output-comparison sanity check (`run_inference_test`)

`np.allclose(cpu_out, npu_out, atol=OUTPUT_COMPARISON_TOLERANCE)` compares
elementwise with `|a - b| <= atol + rtol * |b|`, where numpy's *default*
relative tolerance `rtol = 1e-05` stays in effect because the call only
overrides `atol`.  Floats are idealized as exact rationals; the float
literal `1e-05` is idealized as `1 / 100000` (every inequality proved below
holds with margin far above the `~2e-21` gap between the two). -/

/-- numpy's default relative tolerance `rtol = 1e-05`. -/
def NP_DEFAULT_RTOL : ℚ := 1 / 100000

/-- `np.allclose(a, b, rtol, atol)` on equal-length 1-D arrays:
elementwise `|a_i - b_i| <= atol + rtol * |b_i|`. -/
def np_allclose (rtol atol : ℚ) (a b : List ℚ) : Bool :=
  a.length == b.length &&
    (List.zip a b).all (fun p => decide (|p.1 - p.2| ≤ atol + rtol * |p.2|))

/-- The output comparison in `run_inference_test`: `True` means
"CPU and NPU produce consistent results", `False` means "Output differs". -/
def output_comparison_consistent (cpu_out npu_out : List ℚ) : Bool :=
  np_allclose NP_DEFAULT_RTOL OUTPUT_COMPARISON_TOLERANCE cpu_out npu_out

/-! ### update_badge.py: clone history and badge document

The history is a Python `dict` mapping stringified timestamps to
`{"count": ..., "uniques": ...}` objects.  A Python dict is modelled as an
association list in insertion order: assigning to an existing key replaces
its value in place, assigning a fresh key appends it at the end. -/

/-- One history value: `{"count": c.count, "uniques": c.uniques}`. -/
structure CloneEntry where
  count : ℤ
  uniques : ℤ
  deriving DecidableEq, Repr

/-- `CloneHistory`: stringified-timestamp key → entry, in insertion order. -/
abbrev CloneHistory := List (String × CloneEntry)

/-- Python dict assignment `history[key] = v`: replace in place if the key is
present, else append at the end. -/
def historyInsert (h : CloneHistory) (key : String) (v : CloneEntry) : CloneHistory :=
  if h.any (fun p => p.1 = key) then
    h.map (fun p => if p.1 = key then (key, v) else p)
  else
    h ++ [(key, v)]

/-- One traffic data point as consumed by the merge loop: its stringified
timestamp (`str(c.timestamp)`) and its counts. -/
structure ClonePoint where
  timestampStr : String
  count : ℤ
  uniques : ℤ

/-- The merge loop of `main` (step 3): for each returned data point,
`history[str(c.timestamp)] = {"count": c.count, "uniques": c.uniques}`. -/
def mergeClones (h : CloneHistory) (points : List ClonePoint) : CloneHistory :=
  points.foldl (fun acc c => historyInsert acc c.timestampStr ⟨c.count, c.uniques⟩) h

/-- Step 4: `total_clones = sum(d["count"] for d in history.values())`. -/
def totalClones (h : CloneHistory) : ℤ :=
  (h.map (fun p => p.2.count)).sum

/-! ### badge JSON document (steps 5 and 6)

`badge_data` is a dict literal with six fixed keys; `json.dumps` with default
arguments serializes a flat string/int object in insertion order with
separators `", "` and `": "`.  None of the keys or string values here contain
characters needing JSON escaping. -/

/-- A flat JSON value as used in `badge_data` (an int or a plain string). -/
inductive JsonScalar where
  | num (n : ℤ)
  | str (s : String)
  deriving DecidableEq, Repr

/-- Serialize one scalar as `json.dumps` does (no escaping needed here). -/
def dumpScalar : JsonScalar → String
  | .num n => toString n
  | .str s => "\"" ++ s ++ "\""

/-- `json.dumps` on a flat object with default separators: insertion order,
`", "` between members, `": "` after each key. -/
def json_dumps_flat (obj : List (String × JsonScalar)) : String :=
  "\x7b" ++ String.intercalate ", "
    (obj.map (fun p => "\"" ++ p.1 ++ "\": " ++ dumpScalar p.2)) ++ "\x7d"

/-- The `badge_data` dict literal of `main` (step 5), as a function of
`total_clones`. -/
def badge_data (total_clones : ℤ) : List (String × JsonScalar) :=
  [ ("schemaVersion", .num 1)
  , ("label", .str "Clones")
  , ("message", .str (toString total_clones))
  , ("color", .str "blue")
  , ("namedLogo", .str "github")
  , ("logoColor", .str "white") ]

/-! ### history-load error handling (`main`, step 2/3)

```python
history = {}
try:
    if history_filename in gist.files:
        content = gist.files[history_filename].content
        history = json.loads(content)
        ...
    else:
        ...
except Exception as e:
    print(f"Error loading history: {e}")
```

The remote fetch is external I/O; it is modelled as an `Except`-valued
outcome (`error` = any exception raised while accessing the gist files or
the named file's content).  `json.loads` is an external library call,
modelled as a parse function that may fail (`Except`).  The surrounding
`try`/`except` turns every failure into "keep the empty history". -/

/-- Outcome of fetching the named history file from the gist. -/
inductive HistoryFetch where
  /-- `history_filename in gist.files` is `False`. -/
  | fileMissing
  /-- The named file exists and its content was read. -/
  | content (s : String)
  /-- Any exception raised while fetching/accessing (caught by the `except`). -/
  | accessError (e : String)

/-- The history-load step of `main`: always returns a history, never
propagates a failure; every failure path yields the empty history. -/
def load_history (fetch : HistoryFetch)
    (json_loads : String → Except String CloneHistory) : CloneHistory :=
  match fetch with
  | .accessError _ => []
  | .fileMissing => []
  | .content s =>
    match json_loads s with
    | .error _ => []
    | .ok h => h

/-! ### blurimage.py argument parser (modelled from the spec) -/

/-- Parsed arguments of the Redaction Tool relevant to the parse-behavior
claims: required positional `image`, multi-value `--blur` and `--blur-regex`
(both default to the empty list). -/
structure BlurArgs where
  image : String
  blur : List String
  blur_regex : List String
  deriving DecidableEq, Repr

/-- Modelled from the spec: a token is flag-like when it starts with the
parser's option prefix character `-` (argparse's option detection). -/
def isFlagLike (s : String) : Bool := s.data.head? == some '-'

/-- Modelled from the spec: the token scan of `build_parser` in
`repo_scripts/blurimage.py` (the parser source file is not among the
analyzed sources; only its test suite is).  Per the spec: `--blur` and
`--blur-regex` accept a variable number of following values and greedily
consume every following token up to the next flag-like token (one starting
with `-`), so a positional placed after them without a `--` separator is
swallowed; a literal `--` token ends flag parsing and every remaining token
is positional.  Returns `none` on a parse failure (argparse exits with
status 2): an unknown flag, or a variable-arity flag given no value.
Accumulates (positionals, blur, blur_regex); a repeated flag overwrites its
earlier value (argparse `store` semantics). -/
def scanTokens : Nat → List String → List String → List String → List String →
    Option (List String × List String × List String)
  | _, [], pos, b, br => some (pos, b, br)
  | 0, _ :: _, _, _, _ => none
  | fuel + 1, t :: rest, pos, b, br =>
    if t = "--" then
      some (pos ++ rest, b, br)
    else if t = "--blur" then
      let vals := rest.takeWhile (fun s => ¬ isFlagLike s)
      if vals.isEmpty then none
      else scanTokens fuel (rest.drop vals.length) pos vals br
    else if t = "--blur-regex" then
      let vals := rest.takeWhile (fun s => ¬ isFlagLike s)
      if vals.isEmpty then none
      else scanTokens fuel (rest.drop vals.length) pos b vals
    else if isFlagLike t then
      none
    else
      scanTokens fuel rest (pos ++ [t]) b br

/-- Modelled from the spec: `build_parser(...).parse_args(argv)` for the
Redaction Tool, restricted to `image`/`--blur`/`--blur-regex`.  Exactly one
positional is accepted: zero positionals is a parse failure (missing
required `image`), more than one is a parse failure (unrecognized
arguments).  The scan consumes at least one token per recursive step, so
fuel `argv.length` always suffices and the fuel-out branch is unreachable. -/
def blurimage_parse_args (argv : List String) : Option BlurArgs :=
  match scanTokens argv.length argv [] [] [] with
  | none => none
  | some (pos, b, br) =>
    match pos with
    | [img] => some ⟨img, b, br⟩
    | _ => none

/-! ### `_analyze_delegate_partitions`

One entry of `interpreter._get_ops_details()`: op index, op name, input
tensor ids, output tensor ids. -/

/-- `OpDetails` record from `_get_ops_details()`. -/
structure OpDetails where
  index : Nat
  op_name : String
  inputs : List Nat
  outputs : List Nat
  deriving DecidableEq, Repr

/-- `regular_ops = [op for op in npu_ops if op["op_name"] != "DELEGATE"]`. -/
def regularOps (npu_ops : List OpDetails) : List OpDetails :=
  npu_ops.filter (fun op => op.op_name ≠ "DELEGATE")

/-- `[op for op in ops if op["op_name"] == "DELEGATE"]`. -/
def delegateNodes (ops : List OpDetails) : List OpDetails :=
  ops.filter (fun op => op.op_name = "DELEGATE")

/-- `(tuple(sorted(op["inputs"])), tuple(sorted(op["outputs"])))`. -/
def delegateSig (op : OpDetails) : List Nat × List Nat :=
  (op.inputs.mergeSort (· ≤ ·), op.outputs.mergeSort (· ≤ ·))

/-- The hardware-attributable delegate nodes: all `DELEGATE` nodes when
XNNPACK could be disabled, otherwise those whose signature does not also
appear as a `DELEGATE` node of the CPU-only interpreter (`cpu_sigs`). -/
def teflonDelegates (xnnpack_disabled : Bool)
    (npu_ops cpu_ops : List OpDetails) : List OpDetails :=
  if xnnpack_disabled then delegateNodes npu_ops
  else
    (delegateNodes npu_ops).filter
      (fun op => delegateSig op ∉ (delegateNodes cpu_ops).map delegateSig)

/-- The `tensor_producer` dict: built by iterating `regular_ops` in order and
assigning `tensor_producer[t] = op["index"]` for each output `t`; the lookup
therefore returns the index of the *last* op in list order having `t` among
its outputs. -/
def tensor_producer (ops : List OpDetails) (t : Nat) : Option Nat :=
  ((ops.filter (fun op => t ∈ op.outputs)).getLast?).map (fun op => op.index)

/-- The `op_by_index` dict (`{op["index"]: op for op in regular_ops}`):
last op with that index wins. -/
def op_by_index (ops : List OpDetails) (i : Nat) : Option OpDetails :=
  (ops.filter (fun op => op.index = i)).getLast?

/-- The inner `while queue:` loop of `_analyze_delegate_partitions`, for one
delegate node.  Python's `queue` is a list used as a stack (`pop()` removes
the *last* element, `append` pushes at the end); it is modelled head-as-top,
so pushing the inputs of an op in order corresponds to consing
`inputs.reverse` onto the front.  `fuel` is structural-recursion fuel; the
callers pass `traceFuel`, which exceeds the maximum possible number of loop
iterations (see `traceFuel`), so the loop always runs to queue exhaustion.
Arguments: remaining fuel, queue, `visited`, `absorbed` (both lists used as
sets); returns the final `absorbed`. -/
def traceLoop (ops : List OpDetails) (all_absorbed : List Nat) :
    Nat → List Nat → List Nat → List Nat → List Nat
  | 0, _, _, absorbed => absorbed
  | _ + 1, [], _, absorbed => absorbed
  | fuel + 1, tensor :: queue, visited, absorbed =>
    if tensor ∈ visited then
      traceLoop ops all_absorbed fuel queue visited absorbed
    else
      let visited1 := tensor :: visited
      match tensor_producer ops tensor with
      | none => traceLoop ops all_absorbed fuel queue visited1 absorbed
      | some op_idx =>
        if op_idx ∈ absorbed ∨ op_idx ∈ all_absorbed then
          traceLoop ops all_absorbed fuel queue visited1 absorbed
        else
          let absorbed1 := op_idx :: absorbed
          match op_by_index ops op_idx with
          | none => traceLoop ops all_absorbed fuel queue visited1 absorbed1
          | some producer_op =>
            traceLoop ops all_absorbed fuel
              (producer_op.inputs.reverse ++ queue) visited1 absorbed1

/-- Fuel bound for `traceLoop`.  Every iteration pops one queue element;
elements are pushed only in the branch that newly absorbs an op, which fires
at most once per distinct op index (absorbed indices are never re-added), and
distinct indices resolve to distinct ops via `op_by_index`; so the number of
iterations is at most the initial queue length plus the total input count of
all regular ops.  `traceFuel` strictly exceeds that. -/
def traceFuel (ops : List OpDetails) (initQueue : List Nat) : Nat :=
  initQueue.length + (ops.map (fun op => op.inputs.length)).sum + 1

/-- `min(d["outputs"])`, the sort key of a delegate node (Python `min` on a
nonempty list; `0` stands in for the `ValueError` on an empty list, which
cannot occur for a delegate node of a well-formed model). -/
def minOutputs (d : OpDetails) : Nat := d.outputs.foldr min (d.outputs.headD 0)

/-- `teflon_delegates.sort(key=lambda d: min(d["outputs"]))` — Python's sort
is stable, as is `List.mergeSort`. -/
def sortDelegates (tds : List OpDetails) : List OpDetails :=
  tds.mergeSort (fun a b => minOutputs a ≤ minOutputs b)

/-- The per-delegate loop: for each delegate node (in sorted order) run the
backward trace with the current `all_absorbed`, collect the partition's
absorbed index set, and update `all_absorbed`.  Returns the list of absorbed
index sets, one per delegate node in order.  (`all_absorbed` is a list used
as a set; `++ absorbed` is `all_absorbed.update(absorbed)`.) -/
def tracePartitions (regular : List OpDetails) :
    List OpDetails → List Nat → List (List Nat)
  | [], _ => []
  | td :: rest, all_absorbed =>
    let initQueue := td.outputs.reverse
    let absorbed :=
      traceLoop regular all_absorbed (traceFuel regular initQueue) initQueue [] []
    absorbed :: tracePartitions regular rest (all_absorbed ++ absorbed)

/-- `sorted(absorbed)` followed by
`[op_by_index[idx] for idx in sorted(absorbed) if idx in op_by_index]`. -/
def partitionOps (regular : List OpDetails) (absorbed : List Nat) : List OpDetails :=
  (absorbed.mergeSort (· ≤ ·)).filterMap (fun idx => op_by_index regular idx)

/-- `_count_op_types`: insertion-ordered histogram of `op["op_name"]`. -/
def count_op_types (ops : List OpDetails) : List (String × Nat) :=
  ops.foldl
    (fun acc op =>
      if acc.any (fun p => p.1 = op.op_name) then
        acc.map (fun p => if p.1 = op.op_name then (p.1, p.2 + 1) else p)
      else acc ++ [(op.op_name, 1)])
    []

/-- The `PartitionInfo` result dict. `partitions` keeps each partition's op
list (from which `num_ops` and the op-type histogram of the Python
`PartitionDetail` are derived). -/
structure PartitionInfo where
  num_partitions : Nat
  total_regular_ops : Nat
  absorbed_ops : Nat
  cpu_fallback_ops : Nat
  partitions : List (List OpDetails)
  cpu_fallback_types : List (String × Nat)
  deriving Repr

/-- `_analyze_delegate_partitions` from the point where `npu_ops` (and, on
the signature-comparison fallback path, `cpu_ops`) have been obtained from
the interpreters; the interpreter construction itself is external I/O.
`xnnpack_disabled` records which construction path succeeded. -/
def analyze_delegate_partitions (xnnpack_disabled : Bool)
    (npu_ops cpu_ops : List OpDetails) : PartitionInfo :=
  let regular_ops := regularOps npu_ops
  let tds := teflonDelegates xnnpack_disabled npu_ops cpu_ops
  if tds.isEmpty then
    { num_partitions := 0
      total_regular_ops := regular_ops.length
      absorbed_ops := 0
      cpu_fallback_ops := regular_ops.length
      partitions := []
      cpu_fallback_types := count_op_types regular_ops }
  else
    let parts := tracePartitions regular_ops (sortDelegates tds) []
    let absorbed_per_partition := parts.map (partitionOps regular_ops)
    let all_absorbed := parts.flatten
    let cpu_fallback := regular_ops.filter (fun op => op.index ∉ all_absorbed)
    { num_partitions := tds.length
      total_regular_ops := regular_ops.length
      absorbed_ops := (absorbed_per_partition.map List.length).sum
      cpu_fallback_ops := cpu_fallback.length
      partitions := absorbed_per_partition
      cpu_fallback_types := count_op_types cpu_fallback }

/-- The list of per-partition absorbed index sets computed by
`_analyze_delegate_partitions` (the `absorbed` sets of the per-delegate
loop, in processed order) — the same computation the non-empty branch of
`analyze_delegate_partitions` performs. -/
def analysisPartitions (xnnpack_disabled : Bool)
    (npu_ops cpu_ops : List OpDetails) : List (List Nat) :=
  tracePartitions (regularOps npu_ops)
    (sortDelegates (teflonDelegates xnnpack_disabled npu_ops cpu_ops)) []

/-- The `cpu_fallback` list of `_analyze_delegate_partitions`: every regular
op whose index was never absorbed. -/
def analysisFallback (xnnpack_disabled : Bool)
    (npu_ops cpu_ops : List OpDetails) : List OpDetails :=
  (regularOps npu_ops).filter
    (fun op => op.index ∉ (analysisPartitions xnnpack_disabled npu_ops cpu_ops).flatten)

/-- A small concrete op list in the shape `_get_ops_details()` returns: two
chained regular ops feeding a delegate node, plus one unrelated regular op
(which ends up as CPU fallback). -/
def sampleNpuOps : List OpDetails :=
  [ ⟨0, "CONV_2D", [0, 10, 11], [1]⟩
  , ⟨1, "RESHAPE", [1], [2]⟩
  , ⟨2, "SOFTMAX", [5], [6]⟩
  , ⟨3, "DELEGATE", [0, 1, 2], [2]⟩ ]

/-! ## Theorems -/

/-- C2: `num_runs_for_model` returns exactly 100 for a model file of size
4 MiB, exactly 50 for 10 MiB, exactly 20 for 25 MiB, and exactly 50 whenever
the file size cannot be read (stat fails). -/
theorem num_runs_for_model_spec :
    num_runs_for_model (some (4 * 1024 * 1024)) = 100 ∧
    num_runs_for_model (some (10 * 1024 * 1024)) = 50 ∧
    num_runs_for_model (some (25 * 1024 * 1024)) = 20 ∧
    num_runs_for_model none = 50 :=
  ⟨rfl, rfl, rfl, rfl⟩

/-- C3: `check_kernel` reports supported for `"6.18.0"` and `"7.0.0"`, not
for `"6.17.9"`; any release string without a leading `major.minor` digit
pattern yields supported = false (without raising); and in general supported
holds iff `major > 6`, or `major = 6` and `minor ≥ 18`. -/
theorem check_kernel_spec :
    (check_kernel "6.18.0").2 = true ∧
    (check_kernel "7.0.0").2 = true ∧
    (check_kernel "6.17.9").2 = false ∧
    (∀ ver : String, parseMajorMinor ver = none → (check_kernel ver).2 = false) ∧
    (∀ (ver : String) (major minor : Nat),
      parseMajorMinor ver = some (major, minor) →
        ((check_kernel ver).2 = true ↔ (major > 6 ∨ (major = 6 ∧ minor ≥ 18)))) := by
  refine ⟨rfl, rfl, rfl, ?_, ?_⟩
  · intro ver h
    simp [check_kernel, h]
  · intro ver major minor h
    simp [check_kernel, h]

/-- Witness for C3: instantiates the two general clauses of
`check_kernel_spec` at concrete release strings. -/
theorem check_kernel_spec_witness :
    (check_kernel "armv8-unknown").2 = false ∧
    ((check_kernel "6.18.0").2 = true ↔ ((6 : Nat) > 6 ∨ ((6 : Nat) = 6 ∧ (18 : Nat) ≥ 18))) :=
  ⟨check_kernel_spec.2.2.2.1 "armv8-unknown" rfl,
   check_kernel_spec.2.2.2.2 "6.18.0" 6 18 rfl⟩

/-- C10: `check_model_int8` returns true iff the model has zero tensors of
declared element type float32; in particular a model whose only
floating-point tensors are float16/float64 (and which has no int8 tensor at
all) is still reported fully INT8-quantized. -/
theorem check_model_int8_spec :
    (∀ tensor_details : List NPDtype,
      check_model_int8 tensor_details = true ↔
        ∀ d ∈ tensor_details, d ≠ NPDtype.float32) ∧
    check_model_int8 [NPDtype.float16, NPDtype.float64] = true := by
  refine ⟨?_, rfl⟩
  intro td
  simp [check_model_int8, List.isEmpty_iff, List.filter_eq_nil_iff]

/-- C9: the Redaction Tool parser accepts
`["screenshot.png", "--blur", "myuser"]` (image first), rejects
`["--blur", "myuser", "screenshot.png"]` (the variable-arity flag swallows
the trailing positional), and accepts
`["--blur", "myuser", "--", "screenshot.png"]` (explicit `--` separator). -/
theorem blurimage_parse_args_spec :
    blurimage_parse_args ["screenshot.png", "--blur", "myuser"] =
      some ⟨"screenshot.png", ["myuser"], []⟩ ∧
    blurimage_parse_args ["--blur", "myuser", "screenshot.png"] = none ∧
    blurimage_parse_args ["--blur", "myuser", "--", "screenshot.png"] =
      some ⟨"screenshot.png", ["myuser"], []⟩ :=
  ⟨rfl, rfl, rfl⟩

/-- C4 counterexample: for a signed-byte input the code calls
`np.random.randint(-128, 127)`, whose upper bound is exclusive, so the
value 127 — required by the claim's "every value of [-128,127] possible" —
can never be produced. -/
theorem create_test_input_int8_counterexample :
    create_test_input NPDtype.int8 = TestInputGen.randint (-128) 127 ∧
    (127 : ℤ) ∉ np_randint_support (-128) 127 := by
  refine ⟨rfl, ?_⟩
  simp [np_randint_support]

/-- C4 (amended): unsigned-byte inputs draw uniformly from [0,256);
signed-byte inputs draw uniformly from [-128,127), i.e. every value of
[-128,126] and never 127; any other declared type draws uniform [0,1)
floats cast to that type. -/
theorem create_test_input_spec :
    (create_test_input NPDtype.uint8 = TestInputGen.randint 0 256 ∧
      np_randint_support 0 256 = {n : ℤ | 0 ≤ n ∧ n < 256}) ∧
    (create_test_input NPDtype.int8 = TestInputGen.randint (-128) 127 ∧
      np_randint_support (-128) 127 = {n : ℤ | -128 ≤ n ∧ n ≤ 126}) ∧
    (∀ d : NPDtype, d ≠ NPDtype.uint8 → d ≠ NPDtype.int8 →
      create_test_input d = TestInputGen.randFloatCast d) := by
  refine ⟨⟨rfl, rfl⟩, ⟨rfl, ?_⟩, ?_⟩
  · ext n
    simp only [np_randint_support, Set.mem_setOf_eq]
    omega
  · intro d h8 h8s
    cases d <;> simp_all [create_test_input]

/-- Witness for C4: the non-byte branch of `create_test_input_spec` at
float32. -/
theorem create_test_input_spec_witness :
    create_test_input NPDtype.float32 = TestInputGen.randFloatCast NPDtype.float32 :=
  create_test_input_spec.2.2 NPDtype.float32 (by decide) (by decide)

/-- `np_allclose` unfolded to its elementwise characterization. -/
theorem np_allclose_iff (rtol atol : ℚ) (a b : List ℚ) :
    np_allclose rtol atol a b = true ↔
      (a.length = b.length ∧
        ∀ p ∈ List.zip a b, |p.1 - p.2| ≤ atol + rtol * |p.2|) := by
  simp [np_allclose, List.all_eq_true]

/-- C5 counterexample: the comparison is `np.allclose(cpu, npu, atol=2)`,
which keeps numpy's default relative tolerance `rtol = 1e-5`; the samples
below have a pair differing by 3 (> 2 absolute units) yet are reported
consistent, because `3 ≤ 2 + 1e-5·1000000`. -/
theorem output_comparison_counterexample :
    output_comparison_consistent [0, 0, 0, 0, 1000003] [0, 0, 0, 0, 1000000] = true ∧
    |(1000003 : ℚ) - 1000000| > OUTPUT_COMPARISON_TOLERANCE := by
  constructor
  · rw [output_comparison_consistent, np_allclose_iff]
    refine ⟨rfl, ?_⟩
    intro p hp
    fin_cases hp <;> norm_num [NP_DEFAULT_RTOL, OUTPUT_COMPARISON_TOLERANCE]
  · norm_num [OUTPUT_COMPARISON_TOLERANCE]

/-- C5 (amended): the comparison reports consistent iff every pair of
corresponding elements satisfies `|cpu_i − npu_i| ≤ 2 + 1e-5·|npu_i|`
(`np.allclose` with `atol = 2` and numpy's default `rtol = 1e-5`); in
particular, whenever all pairwise differences are within 2 absolute units it
reports consistent — so CPU `[10,20,30,40,50]` vs NPU `[11,19,31,38,52]` is
consistent — but a pair may exceed 2 absolute units and still be reported
consistent when the NPU value is large. -/
theorem output_comparison_spec :
    (∀ cpu npu : List ℚ, cpu.length = npu.length →
      (∀ p ∈ List.zip cpu npu, |p.1 - p.2| ≤ OUTPUT_COMPARISON_TOLERANCE) →
      output_comparison_consistent cpu npu = true) ∧
    output_comparison_consistent [10, 20, 30, 40, 50] [11, 19, 31, 38, 52] = true ∧
    (∀ cpu npu : List ℚ,
      output_comparison_consistent cpu npu = true ↔
        (cpu.length = npu.length ∧
          ∀ p ∈ List.zip cpu npu,
            |p.1 - p.2| ≤ OUTPUT_COMPARISON_TOLERANCE + NP_DEFAULT_RTOL * |p.2|)) := by
  have hwithin : ∀ cpu npu : List ℚ, cpu.length = npu.length →
      (∀ p ∈ List.zip cpu npu, |p.1 - p.2| ≤ OUTPUT_COMPARISON_TOLERANCE) →
      output_comparison_consistent cpu npu = true := by
    intro cpu npu hlen habs
    rw [output_comparison_consistent, np_allclose_iff]
    refine ⟨hlen, ?_⟩
    intro p hp
    refine le_trans (habs p hp) ?_
    have h1 : (0 : ℚ) ≤ NP_DEFAULT_RTOL * |p.2| := by
      have h2 : (0 : ℚ) ≤ NP_DEFAULT_RTOL := by norm_num [NP_DEFAULT_RTOL]
      exact mul_nonneg h2 (abs_nonneg _)
    linarith
  refine ⟨hwithin, ?_, ?_⟩
  · refine hwithin _ _ rfl ?_
    intro p hp
    fin_cases hp <;> norm_num [OUTPUT_COMPARISON_TOLERANCE]
  · intro cpu npu
    exact np_allclose_iff NP_DEFAULT_RTOL OUTPUT_COMPARISON_TOLERANCE cpu npu

/-- Witness for C5: the within-tolerance direction of
`output_comparison_spec` at the concrete CPU/NPU samples of the spec. -/
theorem output_comparison_spec_witness :
    output_comparison_consistent [1, 2] [2, 1] = true :=
  output_comparison_spec.1 [1, 2] [2, 1] rfl (by
    intro p hp
    fin_cases hp <;> norm_num [OUTPUT_COMPARISON_TOLERANCE])

/-- Mapping the "overwrite key `k`" function over a history is idempotent. -/
theorem historyInsert_map_overwrite_idem (h : CloneHistory) (k : String) (v : CloneEntry) :
    (h.map (fun p => if p.1 = k then (k, v) else p)).map
        (fun p => if p.1 = k then (k, v) else p) =
      h.map (fun p => if p.1 = k then (k, v) else p) := by
  rw [List.map_map]
  apply List.map_congr_left
  intro p _
  by_cases hpk : p.1 = k <;> simp [hpk]

/-- C6: the merge step is idempotent per timestamp key — inserting the same
`{count, uniques}` under the same stringified timestamp a second time leaves
the history map, and therefore the computed total clone count, unchanged. -/
theorem merge_idempotent (h : CloneHistory) (key : String) (v : CloneEntry) :
    historyInsert (historyInsert h key v) key v = historyInsert h key v ∧
    totalClones (historyInsert (historyInsert h key v) key v) =
      totalClones (historyInsert h key v) := by
  have hmain : historyInsert (historyInsert h key v) key v = historyInsert h key v := by
    by_cases hk : (h.any (fun p => p.1 = key)) = true
    · have h1 : historyInsert h key v =
          h.map (fun p => if p.1 = key then (key, v) else p) := by
        simp only [historyInsert, hk, if_true]
      have h2 : ((h.map (fun p => if p.1 = key then (key, v) else p)).any
          (fun p => p.1 = key)) = true := by
        rcases List.any_eq_true.mp hk with ⟨p, hp, hpk⟩
        refine List.any_eq_true.mpr ⟨(key, v), List.mem_map.mpr ⟨p, hp, ?_⟩, by simp⟩
        simp [of_decide_eq_true hpk]
      rw [h1]
      simp only [historyInsert, h2, if_true]
      exact historyInsert_map_overwrite_idem h key v
    · have h1 : historyInsert h key v = h ++ [(key, v)] := by
        simp [historyInsert, hk]
      have h2 : (((h ++ [(key, v)]) : CloneHistory).any (fun p => p.1 = key)) = true :=
        List.any_eq_true.mpr ⟨(key, v), by simp, by simp⟩
      rw [h1]
      simp only [historyInsert, h2, if_true, List.map_append, List.map_cons, List.map_nil,
        if_pos rfl]
      congr 1
      have h3 : ∀ p ∈ h, p.1 ≠ key := by
        intro p hp hpk
        exact hk (List.any_eq_true.mpr ⟨p, hp, decide_eq_true hpk⟩)
      calc h.map (fun p => if p.1 = key then (key, v) else p)
          = h.map id := by
            apply List.map_congr_left
            intro p hp
            simp [h3 p hp]
        _ = h := List.map_id h
  exact ⟨hmain, by rw [hmain]⟩

/-- C7: the badge document is a pure function of the total clone count, with
exactly the fields `schemaVersion = 1`, `label = "Clones"`, `message` = the
decimal string of the total, `color = "blue"`, `namedLogo = "github"`,
`logoColor = "white"` in that order, and two runs with the same total yield
byte-identical serialized JSON. -/
theorem badge_document_spec :
    (∀ total : ℤ,
      badge_data total =
        [ ("schemaVersion", JsonScalar.num 1)
        , ("label", JsonScalar.str "Clones")
        , ("message", JsonScalar.str (toString total))
        , ("color", JsonScalar.str "blue")
        , ("namedLogo", JsonScalar.str "github")
        , ("logoColor", JsonScalar.str "white") ]) ∧
    (∀ t₁ t₂ : ℤ, t₁ = t₂ →
      json_dumps_flat (badge_data t₁) = json_dumps_flat (badge_data t₂)) ∧
    json_dumps_flat (badge_data 1234) =
      "\x7b\"schemaVersion\": 1, \"label\": \"Clones\", \"message\": \"1234\", \"color\": \"blue\", \"namedLogo\": \"github\", \"logoColor\": \"white\"\x7d" := by
  refine ⟨fun _ => rfl, ?_, rfl⟩
  intro t₁ t₂ ht
  rw [ht]

/-- Witness for C7: determinism clause of `badge_document_spec` at total
1234. -/
theorem badge_document_spec_witness :
    json_dumps_flat (badge_data 1234) = json_dumps_flat (badge_data 1234) :=
  badge_document_spec.2.1 1234 1234 rfl

/-- C8: every failure while fetching or parsing the history file (named file
missing, JSON parse error, access error) is caught; the run continues with
the empty history map instead of aborting, and the load step always yields a
history value (never propagates a fatal error). -/
theorem load_history_error_handling :
    ∀ (json_loads : String → Except String CloneHistory) (e s : String),
      load_history (HistoryFetch.accessError e) json_loads = [] ∧
      load_history HistoryFetch.fileMissing json_loads = [] ∧
      (json_loads s = Except.error e →
        load_history (HistoryFetch.content s) json_loads = []) ∧
      (∀ fetch : HistoryFetch, ∃ hist : CloneHistory,
        load_history fetch json_loads = hist) := by
  intro json_loads e s
  refine ⟨rfl, rfl, ?_, fun fetch => ⟨_, rfl⟩⟩
  intro hparse
  simp [load_history, hparse]

/-- Witness for C8: `load_history_error_handling` at a parser that always
fails. -/
theorem load_history_error_handling_witness :
    load_history (HistoryFetch.content "not json")
      (fun _ => Except.error "Expecting value") = [] :=
  (load_history_error_handling (fun _ => Except.error "Expecting value")
      "Expecting value" "not json").2.2.1 rfl

/-! ### C1: invariants of the backward-tracing partition algorithm -/

/-- A producer index returned by `tensor_producer` is the index of some op of
the list. -/
theorem tensor_producer_mem {ops : List OpDetails} {t i : Nat}
    (h : tensor_producer ops t = some i) : ∃ op ∈ ops, op.index = i := by
  unfold tensor_producer at h
  rcases Option.map_eq_some'.mp h with ⟨op, hop, hidx⟩
  exact ⟨op, (List.mem_filter.mp (List.mem_of_mem_getLast? hop)).1, hidx⟩

/-- `op_by_index` finds an op for every index that some op of the list
carries. -/
theorem op_by_index_isSome {ops : List OpDetails} {i : Nat}
    (h : ∃ op ∈ ops, op.index = i) : (op_by_index ops i).isSome := by
  rcases h with ⟨op, hop, hidx⟩
  unfold op_by_index
  rw [List.getLast?_isSome]
  intro hnil
  have : op ∈ ops.filter (fun op => op.index = i) :=
    List.mem_filter.mpr ⟨hop, by simp [hidx]⟩
  simp [hnil] at this

/-- Invariant of the inner trace loop: for any fuel, the returned `absorbed`
set extends the initial one only by indices of ops of the list that are not
in `all_absorbed`, keeping it duplicate-free. -/
theorem traceLoop_inv (ops : List OpDetails) (acc : List Nat) :
    ∀ (fuel : Nat) (queue visited absorbed : List Nat),
      absorbed.Nodup →
      (∀ a ∈ absorbed, a ∉ acc) →
      (∀ a ∈ absorbed, ∃ op ∈ ops, op.index = a) →
      ((traceLoop ops acc fuel queue visited absorbed).Nodup ∧
        (∀ a ∈ traceLoop ops acc fuel queue visited absorbed, a ∉ acc) ∧
        (∀ a ∈ traceLoop ops acc fuel queue visited absorbed,
          ∃ op ∈ ops, op.index = a)) := by
  intro fuel
  induction fuel with
  | zero =>
    intro queue visited absorbed h1 h2 h3
    simpa only [traceLoop] using ⟨h1, h2, h3⟩
  | succ n ih =>
    intro queue visited absorbed h1 h2 h3
    match queue with
    | [] => simpa only [traceLoop] using ⟨h1, h2, h3⟩
    | tensor :: rest =>
      simp only [traceLoop]
      split
      · exact ih rest visited absorbed h1 h2 h3
      · split
        · exact ih rest (tensor :: visited) absorbed h1 h2 h3
        · rename_i op_idx htp
          split
          · exact ih rest (tensor :: visited) absorbed h1 h2 h3
          · rename_i hmem
            push_neg at hmem
            have h1' : (op_idx :: absorbed).Nodup :=
              List.nodup_cons.mpr ⟨hmem.1, h1⟩
            have h2' : ∀ a ∈ op_idx :: absorbed, a ∉ acc := by
              intro a ha
              rcases List.mem_cons.mp ha with rfl | ha
              · exact hmem.2
              · exact h2 a ha
            have h3' : ∀ a ∈ op_idx :: absorbed, ∃ op ∈ ops, op.index = a := by
              intro a ha
              rcases List.mem_cons.mp ha with rfl | ha
              · exact tensor_producer_mem htp
              · exact h3 a ha
            split
            · exact ih rest (tensor :: visited) (op_idx :: absorbed) h1' h2' h3'
            · rename_i producer_op hobi
              exact ih (producer_op.inputs.reverse ++ rest) (tensor :: visited)
                (op_idx :: absorbed) h1' h2' h3'

/-- Invariant of the per-delegate loop: each partition's absorbed set is
duplicate-free, consists of indices of regular ops, avoids the incoming
`all_absorbed`, and the partitions are pairwise disjoint. -/
theorem tracePartitions_inv (regular : List OpDetails) :
    ∀ (tds : List OpDetails) (acc : List Nat),
      (∀ p ∈ tracePartitions regular tds acc,
        p.Nodup ∧ ∀ a ∈ p, (∃ op ∈ regular, op.index = a) ∧ a ∉ acc) ∧
      (tracePartitions regular tds acc).Pairwise List.Disjoint := by
  intro tds
  induction tds with
  | nil =>
    intro acc
    simp [tracePartitions]
  | cons td rest ih =>
    intro acc
    simp only [tracePartitions]
    set A := traceLoop regular acc (traceFuel regular td.outputs.reverse)
      td.outputs.reverse [] [] with hA
    obtain ⟨hA1, hA2, hA3⟩ :=
      traceLoop_inv regular acc (traceFuel regular td.outputs.reverse)
        td.outputs.reverse [] [] List.nodup_nil (by simp) (by simp)
    obtain ⟨hrest1, hrest2⟩ := ih (acc ++ A)
    constructor
    · intro p hp
      rcases List.mem_cons.mp hp with rfl | hp
      · exact ⟨hA1, fun a ha => ⟨hA3 a ha, hA2 a ha⟩⟩
      · obtain ⟨hnd, hmem⟩ := hrest1 p hp
        refine ⟨hnd, fun a ha => ?_⟩
        obtain ⟨hidx, hnotin⟩ := hmem a ha
        exact ⟨hidx, fun hacc => hnotin (List.mem_append_left _ hacc)⟩
    · rw [List.pairwise_cons]
      refine ⟨?_, hrest2⟩
      intro p hp a haA hap
      obtain ⟨_, hmem⟩ := hrest1 p hp
      exact (hmem a hap).2 (List.mem_append_right _ haA)

/-- `filterMap` by a function that succeeds on every element preserves
length. -/
theorem length_filterMap_of_isSome {α β : Type} (f : α → Option β) :
    ∀ l : List α, (∀ a ∈ l, (f a).isSome) → (l.filterMap f).length = l.length := by
  intro l
  induction l with
  | nil => simp
  | cons a t ih =>
    intro h
    rcases Option.isSome_iff_exists.mp (h a (List.mem_cons_self a t)) with ⟨b, hb⟩
    simp [List.filterMap_cons, hb, ih (fun x hx => h x (List.mem_cons_of_mem a hx))]

/-- `partitionOps` loses no element when every absorbed index belongs to some
regular op: the `if idx in op_by_index` guard never filters anything out. -/
theorem partitionOps_length (regular : List OpDetails) (p : List Nat)
    (h : ∀ a ∈ p, ∃ op ∈ regular, op.index = a) :
    (partitionOps regular p).length = p.length := by
  unfold partitionOps
  have hlen : (p.mergeSort (· ≤ ·)).length = p.length :=
    (List.mergeSort_perm p _).length_eq
  rw [← hlen]
  apply length_filterMap_of_isSome
  intro a ha
  exact op_by_index_isSome (h a (List.mem_mergeSort.mp ha))

/-- On a duplicate-free list, filtering by membership in a duplicate-free
sublist counts exactly that sublist. -/
theorem length_filter_mem_of_nodup {L A : List Nat} (hL : L.Nodup) (hA : A.Nodup)
    (hsub : ∀ a ∈ A, a ∈ L) :
    (L.filter (fun a => a ∈ A)).length = A.length := by
  have h1 : (L.filter (fun a => a ∈ A)).Nodup := hL.filter _
  have h2 : ∀ a, a ∈ L.filter (fun a => a ∈ A) ↔ a ∈ A := by
    intro a
    simp only [List.mem_filter, decide_eq_true_eq]
    exact ⟨fun h => h.2, fun h => ⟨hsub a h, h⟩⟩
  exact ((List.perm_ext_iff_of_nodup h1 hA).mpr h2).length_eq

/-- C1: for every op graph analyzed by the backward-tracing algorithm (the
op indices of the non-delegate ops being distinct, as they are in an
interpreter's op list), no non-delegate op index is assigned to two
different partitions, the union of the partitions' absorbed index sets with
the CPU-fallback op set is exactly the set of all non-delegate ops, and
`absorbed_ops + cpu_fallback_ops = total_regular_ops`. -/
theorem analyze_delegate_partitions_invariant
    (xnnpack_disabled : Bool) (npu_ops cpu_ops : List OpDetails)
    (hidx : ((regularOps npu_ops).map (fun op => op.index)).Nodup) :
    (analysisPartitions xnnpack_disabled npu_ops cpu_ops).Pairwise List.Disjoint ∧
    (∀ i : Nat,
      (i ∈ (analysisPartitions xnnpack_disabled npu_ops cpu_ops).flatten ∨
        i ∈ (analysisFallback xnnpack_disabled npu_ops cpu_ops).map
          (fun op => op.index)) ↔
      i ∈ (regularOps npu_ops).map (fun op => op.index)) ∧
    (analyze_delegate_partitions xnnpack_disabled npu_ops cpu_ops).absorbed_ops +
        (analyze_delegate_partitions xnnpack_disabled npu_ops cpu_ops).cpu_fallback_ops =
      (analyze_delegate_partitions xnnpack_disabled npu_ops cpu_ops).total_regular_ops := by
  obtain ⟨hparts, hdisj⟩ :=
    tracePartitions_inv (regularOps npu_ops)
      (sortDelegates (teflonDelegates xnnpack_disabled npu_ops cpu_ops)) []
  have hflat_sub : ∀ a ∈ (analysisPartitions xnnpack_disabled npu_ops cpu_ops).flatten,
      ∃ op ∈ regularOps npu_ops, op.index = a := by
    intro a ha
    rcases List.mem_flatten.mp ha with ⟨p, hp, hap⟩
    exact ((hparts p hp).2 a hap).1
  have hflat_nodup : (analysisPartitions xnnpack_disabled npu_ops cpu_ops).flatten.Nodup :=
    List.nodup_flatten.mpr ⟨fun p hp => (hparts p hp).1, hdisj⟩
  refine ⟨hdisj, ?_, ?_⟩
  · -- union property
    intro i
    constructor
    · rintro (hi | hi)
      · rcases hflat_sub i hi with ⟨op, hop, hop_idx⟩
        exact List.mem_map.mpr ⟨op, hop, hop_idx⟩
      · rcases List.mem_map.mp hi with ⟨op, hop, hop_idx⟩
        exact List.mem_map.mpr ⟨op, (List.mem_filter.mp hop).1, hop_idx⟩
    · intro hi
      rcases List.mem_map.mp hi with ⟨op, hop, hop_idx⟩
      by_cases hin : i ∈ (analysisPartitions xnnpack_disabled npu_ops cpu_ops).flatten
      · exact Or.inl hin
      · refine Or.inr (List.mem_map.mpr ⟨op, List.mem_filter.mpr ⟨hop, ?_⟩, hop_idx⟩)
        simp only [decide_eq_true_eq]
        rw [hop_idx]
        exact hin
  · -- counting
    simp only [analyze_delegate_partitions]
    split
    · simp
    · rename_i htds
      simp only
      -- absorbed side: Σ |partitionOps p| = Σ |p| = |flatten|
      have habs :
          (((tracePartitions (regularOps npu_ops)
                (sortDelegates (teflonDelegates xnnpack_disabled npu_ops cpu_ops)) []).map
              (partitionOps (regularOps npu_ops))).map List.length).sum =
            (analysisPartitions xnnpack_disabled npu_ops cpu_ops).flatten.length := by
        rw [List.map_map]
        have hcong :
            (tracePartitions (regularOps npu_ops)
                (sortDelegates (teflonDelegates xnnpack_disabled npu_ops cpu_ops)) []).map
              (List.length ∘ partitionOps (regularOps npu_ops)) =
            (tracePartitions (regularOps npu_ops)
                (sortDelegates (teflonDelegates xnnpack_disabled npu_ops cpu_ops)) []).map
              List.length := by
          apply List.map_congr_left
          intro p hp
          exact partitionOps_length (regularOps npu_ops) p
            (fun a ha => ((hparts p hp).2 a ha).1)
        rw [hcong, analysisPartitions, List.length_flatten]
      rw [habs]
      -- fallback side
      have hsub : ∀ a ∈ (analysisPartitions xnnpack_disabled npu_ops cpu_ops).flatten,
          a ∈ (regularOps npu_ops).map (fun op => op.index) := by
        intro a ha
        rcases hflat_sub a ha with ⟨op, hop, hop_idx⟩
        exact List.mem_map.mpr ⟨op, hop, hop_idx⟩
      have hcount :
          ((regularOps npu_ops).filter (fun op =>
              op.index ∈ (analysisPartitions xnnpack_disabled npu_ops cpu_ops).flatten)).length =
            (analysisPartitions xnnpack_disabled npu_ops cpu_ops).flatten.length := by
        have hmapfil :
            (((regularOps npu_ops).map (fun op => op.index)).filter (fun a =>
                a ∈ (analysisPartitions xnnpack_disabled npu_ops cpu_ops).flatten)) =
              (((regularOps npu_ops).filter (fun op =>
                  op.index ∈ (analysisPartitions xnnpack_disabled npu_ops cpu_ops).flatten)).map
                (fun op => op.index)) := by
          rw [List.filter_map]
          rfl
        have := length_filter_mem_of_nodup hidx hflat_nodup hsub
        rw [hmapfil, List.length_map] at this
        exact this
      have hsplit :
          ((regularOps npu_ops).filter (fun op =>
              op.index ∈ (analysisPartitions xnnpack_disabled npu_ops cpu_ops).flatten)).length +
            ((regularOps npu_ops).filter (fun op =>
              op.index ∉ (analysisPartitions xnnpack_disabled npu_ops cpu_ops).flatten)).length =
          (regularOps npu_ops).length := by
        have hperm :=
          (regularOps npu_ops).filter_append_perm (fun op =>
            op.index ∈ (analysisPartitions xnnpack_disabled npu_ops cpu_ops).flatten)
        have hlen := hperm.length_eq
        rw [List.length_append] at hlen
        have hnoteq :
            ((regularOps npu_ops).filter (fun op =>
                !(decide (op.index ∈ (analysisPartitions xnnpack_disabled npu_ops cpu_ops).flatten)))) =
              ((regularOps npu_ops).filter (fun op =>
                op.index ∉ (analysisPartitions xnnpack_disabled npu_ops cpu_ops).flatten)) := by
          apply List.filter_congr
          intro op _
          simp only [decide_not]
        rw [hnoteq] at hlen
        exact hlen
      show (analysisPartitions xnnpack_disabled npu_ops cpu_ops).flatten.length +
          ((regularOps npu_ops).filter (fun op =>
            op.index ∉ (analysisPartitions xnnpack_disabled npu_ops cpu_ops).flatten)).length =
        (regularOps npu_ops).length
      rw [← hcount]
      exact hsplit

/-- Witness for C1: the partition invariant at the concrete sample op graph,
with the distinct-index hypothesis discharged by computation. -/
theorem analyze_delegate_partitions_invariant_witness :
    ((regularOps sampleNpuOps).map (fun op => op.index)).Nodup ∧
    ((analysisPartitions true sampleNpuOps []).Pairwise List.Disjoint ∧
      (∀ i : Nat,
        (i ∈ (analysisPartitions true sampleNpuOps []).flatten ∨
          i ∈ (analysisFallback true sampleNpuOps []).map (fun op => op.index)) ↔
        i ∈ (regularOps sampleNpuOps).map (fun op => op.index)) ∧
      (analyze_delegate_partitions true sampleNpuOps []).absorbed_ops +
          (analyze_delegate_partitions true sampleNpuOps []).cpu_fallback_ops =
        (analyze_delegate_partitions true sampleNpuOps []).total_regular_ops) :=
  ⟨by decide, analyze_delegate_partitions_invariant true sampleNpuOps [] (by decide)⟩

/-- Witness for C6: idempotence of the merge step at a concrete history and
data point. -/
theorem merge_idempotent_witness :
    historyInsert (historyInsert [("2025-12-01 00:00:00", ⟨7, 2⟩)]
        "2025-12-02 00:00:00" ⟨5, 3⟩) "2025-12-02 00:00:00" ⟨5, 3⟩ =
      historyInsert [("2025-12-01 00:00:00", ⟨7, 2⟩)] "2025-12-02 00:00:00" ⟨5, 3⟩ :=
  (merge_idempotent [("2025-12-01 00:00:00", ⟨7, 2⟩)] "2025-12-02 00:00:00" ⟨5, 3⟩).1

/-- Witness for C10: the characterization of `check_model_int8` at a
concrete tensor list. -/
theorem check_model_int8_spec_witness :
    check_model_int8 [NPDtype.int8, NPDtype.float32] = true ↔
      ∀ d ∈ [NPDtype.int8, NPDtype.float32], d ≠ NPDtype.float32 :=
  check_model_int8_spec.1 [NPDtype.int8, NPDtype.float32]

end Sbcstuff
